import Mathlib

/-!
Verification of the gh_webhook bot core against its specification.

The development shallowly embeds the parts of the code base that the
checked properties speak about:

* `verify_github_signature` and the `_verify_webhook_signature` wrapper
  (src/gh_webhook/utils.py, src/gh_webhook/webhook.py);
* the two-tier permission system and the MCP tool permission gate
  (src/gh_webhook/permission_manager.py, src/gh_webhook/mcp.py);
* the message aggregator (src/gh_webhook/msg_aggregator.py);
* the webhook submit pipeline `process_webhook` (src/gh_webhook/webhook.py);
* the AI-review control flow (src/gh_webhook/webhook.py, gh_rest.py);
* the AI rate limiter (src/gh_webhook/ai_handler.py, ai_models.py).

Bytes are modelled as `List Nat`, wall-clock instants as `Nat` seconds,
Python dicts as association lists, and the cryptographic HMAC primitives
as an abstract environment of digest functions.
-/

namespace GhWebhook

/-! ## Signature verifier (utils.verify_github_signature) -/

/-- Abstract HMAC digest functions: `hmacSha1 secret body` and
`hmacSha256 secret body` stand for `hmac.new(secret, body, alg).hexdigest()`. -/
structure SigEnv where
  hmacSha1 : String → List Nat → String
  hmacSha256 : String → List Nat → String

/-- Embedding of `utils.verify_github_signature(payload_body, signature_header, secret)`.
The Python code returns True when the header or the secret is falsy, strips the
`sha1=` / `sha256=` prefix (`startswith` is modelled as equality of the taken
prefix), recomputes the digest and compares with `hmac.compare_digest`
(modelled as string equality); unknown prefixes yield False. -/
def verify_github_signature (env : SigEnv) (payload_body : List Nat)
    (signature_header secret : String) : Bool :=
  if signature_header = "" ∨ secret = "" then
    true
  else if signature_header.take 5 = "sha1=" then
    signature_header.drop 5 == env.hmacSha1 secret payload_body
  else if signature_header.take 7 = "sha256=" then
    signature_header.drop 7 == env.hmacSha256 secret payload_body
  else
    false

/-- Per-repository configuration slice read by the webhook processor. -/
structure RepoCfg where
  enabled : Bool
  webhook_enabled : Bool
  verify_signature : Bool
  webhook_secret : Option String
  allowed_message_types : List String
deriving DecidableEq

/-- Embedding of `WebhookProcessor._verify_webhook_signature` for an event whose
repository has the configuration `cfg` (the utils module is assumed wired).
When verification is disabled the check passes; a missing or empty secret fails;
otherwise the raw body (or the re-serialized payload) is checked. -/
def verifyWebhookSignature (env : SigEnv) (cfg : RepoCfg)
    (raw_body : Option (List Nat)) (payloadBytes : List Nat) (sig : String) : Bool :=
  if cfg.verify_signature = false then
    true
  else
    match cfg.webhook_secret with
    | none => false
    | some secret =>
      if secret = "" then false
      else verify_github_signature env (raw_body.getD payloadBytes) sig secret

/-- A concrete digest environment used by closed evaluation theorems. -/
def env0 : SigEnv :=
  ⟨fun _ _ => "d1feed", fun _ _ => "d256feed"⟩

/-! ## Permission system (permission_manager.py, mcp.py) -/

/-- QQ (chat) permission levels, source `QQPermissionLevel`. -/
inductive QQLevel
  | none
  | read
  | write
  | su
deriving DecidableEq

/-- GitHub (code-host) permission levels, source `GitHubPermissionLevel`. -/
inductive GHLevel
  | none
  | write
deriving DecidableEq

/-- The `permission_hierarchy` ranking used by `has_qq_permission`. -/
def qqRank : QQLevel → Nat
  | QQLevel.none => 0
  | QQLevel.read => 1
  | QQLevel.write => 2
  | QQLevel.su => 3

/-- State of `SimplifiedPermissionManager.permissions_data` plus the SU list. -/
structure PermState where
  superusers : List String
  qq_permissions : List (String × QQLevel)
  github_permissions : List (String × GHLevel)
  qq_github_mapping : List (String × String)
deriving DecidableEq

/-- Source `get_qq_permission`: superusers are SU, otherwise the stored level, default NONE. -/
def get_qq_permission (st : PermState) (qq : String) : QQLevel :=
  if qq ∈ st.superusers then QQLevel.su
  else (List.lookup qq st.qq_permissions).getD QQLevel.none

/-- Source `get_github_by_qq`: the chat-user to code-host-user binding. -/
def get_github_by_qq (st : PermState) (qq : String) : Option String :=
  List.lookup qq st.qq_github_mapping

/-- Source `_get_effective_qq_permission`: a NONE user bound to a (truthy) code-host
user is effectively READ. -/
def effective_qq_permission (st : PermState) (qq : String) : QQLevel :=
  match get_qq_permission st qq with
  | QQLevel.none =>
    match get_github_by_qq st qq with
    | some g => if g = "" then QQLevel.none else QQLevel.read
    | Option.none => QQLevel.none
  | l => l

/-- Source `has_qq_permission`: compares effective level ranks. -/
def has_qq_permission (st : PermState) (qq : String) (req : QQLevel) : Bool :=
  decide (qqRank req ≤ qqRank (effective_qq_permission st qq))

/-- Source `get_github_permission`: stored level, default NONE. -/
def get_github_permission (st : PermState) (gh : String) : GHLevel :=
  (List.lookup gh st.github_permissions).getD GHLevel.none

/-- The `write_operations` set hard-coded in
`SimplifiedPermissionManager.check_mcp_write_permission`. -/
def pm_write_operations : List String :=
  ["create_issue", "update_issue", "close_issue", "create_pull_request",
   "update_pull_request", "merge_pull_request", "add_comment", "update_comment",
   "delete_comment", "create_label"]

/-- Source `check_mcp_write_permission`: operations outside its own write set pass
unconditionally; effective WRITE or SU passes; otherwise a binding to a
code-host user at WRITE passes. -/
def check_mcp_write_permission (st : PermState) (qq op : String) : Bool :=
  if op ∉ pm_write_operations then
    true
  else if effective_qq_permission st qq = QQLevel.write ∨
          effective_qq_permission st qq = QQLevel.su then
    true
  else
    match get_github_by_qq st qq with
    | some g => if g = "" then false else decide (get_github_permission st g = GHLevel.write)
    | Option.none => false

/-- The `read_operations` set hard-coded in `MCPTools._check_tool_permissions`. -/
def mcp_read_operations : List String :=
  ["get_pull_request", "list_pull_requests", "get_issue", "list_issues",
   "get_issue_comments", "list_comments", "search_code", "get_file_content",
   "list_repository_files", "list_labels", "get_repository_info",
   "search_conversations", "get_context_statistics", "find_related_contexts"]

/-- The `write_operations` set hard-coded in `MCPTools._check_tool_permissions`. -/
def mcp_write_operations : List String :=
  ["create_pull_request", "update_pull_request", "merge_pull_request",
   "create_issue", "update_issue", "close_issue", "add_comment",
   "update_comment", "delete_comment", "create_label", "add_labels_to_issue",
   "remove_labels_from_issue", "assign_issue", "unassign_issue"]

/-- The `permission_mapping` of abstract tool permission tags to QQ levels
(unknown tags default to READ). -/
def permission_mapping (p : String) : QQLevel :=
  if p = "ai_chat" then QQLevel.read
  else if p = "github_read" then QQLevel.read
  else if p = "github_write" then QQLevel.write
  else if p = "user_manage" then QQLevel.su
  else if p = "system_admin" then QQLevel.su
  else QQLevel.read

/-- Embedding of `MCPTools._check_tool_permissions` for a present user and
permission manager: SU bypasses; then the read/write set gate; then every
tag in the tool configuration must be satisfied. Returns whether the call
proceeds (False models `MCPPermissionError`). -/
def checkToolPermissions (st : PermState) (qq tool : String)
    (toolPerms : List String) : Bool :=
  if has_qq_permission st qq QQLevel.su then
    true
  else
    (if tool ∈ mcp_write_operations then
      check_mcp_write_permission st qq tool
    else if tool ∈ mcp_read_operations then
      has_qq_permission st qq QQLevel.read || check_mcp_write_permission st qq tool
    else
      check_mcp_write_permission st qq tool)
    && toolPerms.all (fun p => has_qq_permission st qq (permission_mapping p))

/-- The MCP capability registry: tool name with its `permissions` tags
(mcp.py `MCPToolCapabilities`). -/
def mcp_tool_registry : List (String × List String) :=
  [("search_code", ["github_read"]),
   ("get_file_content", ["github_read"]),
   ("list_repository_files", ["github_read"]),
   ("list_pull_requests", ["github_read"]),
   ("get_pull_request", ["github_read"]),
   ("create_pull_request", ["github_write"]),
   ("update_pull_request", ["github_write"]),
   ("merge_pull_request", ["github_write"]),
   ("list_issues", ["github_read"]),
   ("get_issue", ["github_read"]),
   ("create_issue", ["github_write"]),
   ("update_issue", ["github_write"]),
   ("close_issue", ["github_write"]),
   ("list_comments", ["github_read"]),
   ("add_comment", ["github_write"]),
   ("create_issue_comment", ["github_write"]),
   ("update_comment", ["github_write"]),
   ("delete_comment", ["github_write"]),
   ("list_labels", ["github_read"]),
   ("create_label", ["github_write"]),
   ("search_conversations", ["ai_chat"]),
   ("get_context_stats", ["ai_chat"]),
   ("find_related_contexts", ["ai_chat"]),
   ("export_context", ["ai_chat"])]

/-- Source `MCPTools.call_tool` permission outcome: an unregistered tool never runs
(`MCPValidationError`); a registered one runs iff `_check_tool_permissions`
passes. -/
def toolExecutes (st : PermState) (qq tool : String) : Bool :=
  match List.lookup tool mcp_tool_registry with
  | some perms => checkToolPermissions st qq tool perms
  | Option.none => false

/-- The registered tools that mutate code-host state (each carries the
`github_write` tag in the registry). -/
def registry_write_tools : List String :=
  ["create_issue", "update_issue", "close_issue", "create_pull_request",
   "update_pull_request", "merge_pull_request", "add_comment",
   "create_issue_comment", "update_comment", "delete_comment", "create_label"]

/-- Permission state exercising the claim: `u1` has no stored chat level and is
bound to code-host user `g1` whose level is WRITE. -/
def exPerm : PermState :=
  ⟨[], [("u2", QQLevel.read)], [("g1", GHLevel.write)], [("u1", "g1"), ("u2", "g1")]⟩

/-- Permission state with a plain WRITE chat user, for witnesses. -/
def wPerm : PermState :=
  ⟨[], [("w1", QQLevel.write)], [], []⟩

/-! ## Message aggregator (msg_aggregator.py) -/

/-- Source `PendingMessage`: opaque content plus the `metadata["targets"]` list.
Targets are identifiers (`Nat`). -/
structure PendingMsg where
  content : Nat
  targets : List Nat
deriving DecidableEq

/-- Default used where Python would index an empty list. -/
def defaultPendingMsg : PendingMsg := ⟨0, []⟩

/-- Source `AggregationGroup`: message backlog plus timer bookkeeping. -/
structure AggGroup where
  messages : List PendingMsg
  timerArmed : Bool
  deadline : Nat
  created_at : Nat
  last_updated : Nat
deriving DecidableEq

/-- Source `MessageAggregator` observable state: the group table and `mute_until`. -/
structure AggState where
  groups : List (String × AggGroup)
  mute_until : Nat
deriving DecidableEq

/-- Source constant `max_messages_per_group = 10`. -/
def max_messages_per_group : Nat := 10

/-- Source `is_muted`: `time.time() < mute_until`. -/
def is_muted (st : AggState) (now : Nat) : Bool :=
  decide (now < st.mute_until)

/-- Remove a key from the group table. -/
def eraseGroup (groups : List (String × AggGroup)) (key : String) :
    List (String × AggGroup) :=
  groups.filter (fun p => decide (p.1 ≠ key))

/-- Source `add_message`: muted adds are dropped; otherwise the message is appended to
the (possibly fresh) group, the backlog trimmed to the newest ten, and the
single per-key timer re-armed to `now + delay`. -/
def add_message (st : AggState) (now : Nat) (key : String) (msg : PendingMsg)
    (delay : Nat) : AggState × Bool :=
  if is_muted st now then
    (st, false)
  else
    let g0 := (List.lookup key st.groups).getD ⟨[], false, 0, now, now⟩
    let appended := g0.messages ++ [msg]
    let msgs :=
      if max_messages_per_group < appended.length then
        appended.drop (appended.length - max_messages_per_group)
      else appended
    ({ st with groups :=
        (key, { g0 with messages := msgs, timerArmed := true,
                        deadline := now + delay, last_updated := now })
          :: eraseGroup st.groups key },
     true)

/-- Source `_send_aggregated_messages`: a muted fire returns before touching the
table; otherwise the group is snapshotted and deleted, and the snapshot is
fanned out to the target list of the FIRST message (empty targets send
nothing). The second component is the outbound bundle, if any. -/
def sendAggregatedMessages (st : AggState) (now : Nat) (key : String) :
    AggState × Option (List PendingMsg × List Nat) :=
  if is_muted st now then
    (st, Option.none)
  else
    match List.lookup key st.groups with
    | Option.none => (st, Option.none)
    | some g =>
      if g.messages = [] then
        ({ st with groups := eraseGroup st.groups key }, Option.none)
      else
        let snapshot := g.messages
        let targets := (snapshot.headD defaultPendingMsg).targets
        let st2 := { st with groups := eraseGroup st.groups key }
        if targets = [] then (st2, Option.none)
        else (st2, some (snapshot, targets))

/-- The newest ten entries of a backlog, in arrival order. -/
def lastTen (l : List PendingMsg) : List PendingMsg :=
  l.drop (l.length - max_messages_per_group)

/-- The backlog currently stored for a key (empty when the key is absent). -/
def groupMessages (st : AggState) (key : String) : List PendingMsg :=
  match List.lookup key st.groups with
  | some g => g.messages
  | Option.none => []

/-- Fold a timed burst of additions for one key through `add_message`. -/
def addBurst (st : AggState) (key : String) (delay : Nat)
    (burst : List (Nat × PendingMsg)) : AggState :=
  burst.foldl (fun s p => (add_message s p.1 key p.2 delay).1) st

/-- Aggregator state with one pending group and an active mute, for the
drain-while-muted analysis. -/
def exAgg : AggState :=
  ⟨[("qq_12345", ⟨[⟨1, [5]⟩], true, 7, 0, 0⟩)], 100⟩

/-- Unmuted aggregator state with a two-message group whose messages carry
different target lists. -/
def exAgg2 : AggState :=
  ⟨[("k2", ⟨[⟨1, [5]⟩, ⟨2, [6]⟩], true, 7, 0, 0⟩)], 0⟩

/-! ## Webhook submit pipeline (webhook.py process_webhook) -/

/-- The `supported_events` set of `WebhookProcessor`. -/
def supported_events : List String :=
  ["push", "pull_request", "issues", "issue_comment", "pull_request_review",
   "pull_request_review_comment", "release", "star", "fork", "watch",
   "create", "delete", "workflow_run", "workflow_job", "repository", "ping"]

/-- Incoming webhook request data (`webhook_data` / `WebhookEvent`):
`payloadRepo` is the extracted `repository.full_name` (None when absent) and
`payloadNonempty` models the payload-truthiness check. -/
structure EventIn where
  event_type : String
  delivery_id : String
  sig : String
  payloadRepo : Option String
  payloadNonempty : Bool
  raw_body : Option (List Nat)
  payloadBytes : List Nat
deriving DecidableEq

/-- Processor state: repository configuration table, delivery-dedup cache
(delivery id to first-seen instant) and the event queue contents. -/
structure WPState where
  repos : List (String × RepoCfg)
  delivery_cache : List (String × Nat)
  queue : List String
deriving DecidableEq

/-- Source constant `cache_ttl = 3600` seconds. -/
def cache_ttl : Nat := 3600

/-- Source queue bound `asyncio.Queue(maxsize=1000)`. The source enqueues with
`await event_queue.put(event)`, which SUSPENDS when the queue is full and
never raises `asyncio.QueueFull` (only `put_nowait` would); the
`except asyncio.QueueFull` branch in `process_webhook` is unreachable, so no
submission outcome depends on this bound. -/
def queue_capacity : Nat := 1000

/-- Source `_validate_event`: all fields present and the type supported. -/
def validateEvent (e : EventIn) : Bool :=
  if e.event_type = "" then false
  else if e.delivery_id = "" then false
  else if e.payloadNonempty = false then false
  else if e.event_type ∈ supported_events then true
  else false

/-- Lazy expiry inside `_is_duplicate_delivery`: drop entries first seen more
than `cache_ttl` seconds ago. -/
def expireCache (cache : List (String × Nat)) (now : Nat) : List (String × Nat) :=
  cache.filter (fun p => decide (now - p.2 ≤ cache_ttl))

/-- Outcome of one `process_webhook` call; `accepted…` constructors are the
paths returning True, `rejected…` the paths returning False. There is no
queue-full outcome: the blocking `put` always enqueues eventually. -/
inductive PWResult
  | rejectedInvalid
  | acceptedDuplicate
  | rejectedNoRepo
  | acceptedNotConfigured
  | acceptedDisabled
  | rejectedSignature
  | acceptedEnqueued
deriving DecidableEq

/-- The boolean `process_webhook` actually returns for each outcome. -/
def PWResult.toBool : PWResult → Bool
  | PWResult.rejectedInvalid => false
  | PWResult.acceptedDuplicate => true
  | PWResult.rejectedNoRepo => false
  | PWResult.acceptedNotConfigured => true
  | PWResult.acceptedDisabled => true
  | PWResult.rejectedSignature => false
  | PWResult.acceptedEnqueued => true

/-- Pipeline steps of `process_webhook`, for stating the execution order. -/
inductive WStep
  | validate
  | extract
  | dedup
  | gate
  | sigver
  | enq
deriving DecidableEq

/-- The stages of `process_webhook` after a dedup miss: repository presence and
configuration gate, signature verification, then the enqueue. The enqueue is
`await event_queue.put(event)`: a blocking put that appends unconditionally
(when the bounded queue is full it suspends until space frees up; it never
raises, so the queue-full except branch of the source is dead code and no
rejection outcome exists). Never touches the delivery cache. -/
def processRest (env : SigEnv) (st : WPState) (e : EventIn) (repo : Option String) :
    WPState × PWResult × List WStep :=
  match repo with
  | Option.none => (st, PWResult.rejectedNoRepo, [WStep.gate])
  | some r =>
    match List.lookup r st.repos with
    | Option.none => (st, PWResult.acceptedNotConfigured, [WStep.gate])
    | some cfg =>
      if cfg.enabled = false ∨ cfg.webhook_enabled = false then
        (st, PWResult.acceptedDisabled, [WStep.gate])
      else if verifyWebhookSignature env cfg e.raw_body e.payloadBytes e.sig = false then
        (st, PWResult.rejectedSignature, [WStep.gate, WStep.sigver])
      else
        ({ st with queue := st.queue ++ [e.delivery_id] },
         PWResult.acceptedEnqueued, [WStep.gate, WStep.sigver, WStep.enq])

/-- Prefix the step trace of a pipeline stage result. -/
def prependSteps (steps : List WStep) (r : WPState × PWResult × List WStep) :
    WPState × PWResult × List WStep :=
  (r.1, r.2.1, steps ++ r.2.2)

/-- Embedding of `WebhookProcessor.process_webhook`: validate, extract the
repository, dedup (recording the id on a miss), then `processRest`. The third
component is the trace of executed pipeline steps. -/
def process_webhook (env : SigEnv) (st : WPState) (now : Nat) (e : EventIn) :
    WPState × PWResult × List WStep :=
  if validateEvent e = false then
    (st, PWResult.rejectedInvalid, [WStep.validate])
  else
    if (List.lookup e.delivery_id (expireCache st.delivery_cache now)).isSome then
      ({ st with delivery_cache := expireCache st.delivery_cache now },
       PWResult.acceptedDuplicate, [WStep.validate, WStep.extract, WStep.dedup])
    else
      prependSteps [WStep.validate, WStep.extract, WStep.dedup]
        (processRest env
          { st with delivery_cache :=
              (e.delivery_id, now) :: expireCache st.delivery_cache now }
          e e.payloadRepo)

/-- The step order the code realizes on a full run. -/
def codeStepOrder : List WStep :=
  [WStep.validate, WStep.extract, WStep.dedup, WStep.gate, WStep.sigver, WStep.enq]

/-- The step order asserted by the specification (signature and dedup checked
before... dedup after signature). -/
def claimedStepOrder : List WStep :=
  [WStep.validate, WStep.extract, WStep.gate, WStep.sigver, WStep.dedup, WStep.enq]

/-- A repository configuration with signature checking enabled and a
restrictive allowed-message-type list, for counterexamples. -/
def exCfg : RepoCfg :=
  ⟨true, true, true, some "k", ["push"]⟩

/-- Processor state knowing repository `o/r` with `exCfg`. -/
def exWP : WPState :=
  ⟨[("o/r", exCfg)], [], []⟩

/-- Processor state where delivery `d1` is already cached. -/
def exWPdup : WPState :=
  ⟨[("o/r", exCfg)], [("d1", 0)], []⟩

/-- An `issues` event for `o/r` carrying a signature that does not match. -/
def exEvent : EventIn :=
  ⟨"issues", "d1", "sha256=bad", some "o/r", true, some [1, 2], [1, 2]⟩

/-- An `issues` event for `o/r` whose signature matches under `env0`. -/
def exEventOk : EventIn :=
  ⟨"issues", "d2", "sha256=d256feed", some "o/r", true, some [1, 2], [1, 2]⟩

/-! ## AI review control flow (webhook.py, gh_rest.py) -/

/-- A previously submitted PR review as returned by `get_pr_reviews`. -/
structure PriorReview where
  author : String
  state : String
  id : Option Nat
deriving DecidableEq

/-- Review states `_check_and_hide_outdated_reviews` hides. -/
def hide_states : List String := ["CHANGES_REQUESTED", "COMMENTED"]

/-- Remote actions performed by the review controller, in order. -/
inductive RAct
  | getPrFiles
  | reviewCode
  | hideReview (i : Nat)
  | createComment
  | updateComment
  | removeReviewRequest
  | submitReview
  | notifySent
deriving DecidableEq

/-- Embedding of `_check_and_hide_outdated_reviews`: hide every prior review by
the bot whose state is CHANGES_REQUESTED or COMMENTED and that has an id. -/
def checkAndHideOutdatedReviews (reviews : List PriorReview) (bot : String) :
    List RAct :=
  reviews.filterMap (fun r =>
    if r.author = bot ∧ r.state ∈ hide_states then
      match r.id with
      | some i => some (RAct.hideReview i)
      | Option.none => Option.none
    else Option.none)

/-- Embedding of `_remove_review_and_comment`: hide outdated reviews, then
update or create the explanatory comment (`existingComment` is the result of
`find_bot_comment_by_keywords`, with its optional id), then remove the review
request. -/
def removeReviewAndComment (reviews : List PriorReview)
    (existingComment : Option (Option Nat)) (bot : String) : List RAct :=
  checkAndHideOutdatedReviews reviews bot ++
  (match existingComment with
   | some (some _) => [RAct.updateComment]
   | some Option.none => [RAct.createComment]
   | Option.none => [RAct.createComment]) ++
  [RAct.removeReviewRequest]

/-- Environment of one `_perform_ai_review` run: the prior reviews of the PR, the
comment lookup result, the configured bot name, and oracles for whether PR
files were fetched, a review result was produced, its summary signalled an
error, and the submission succeeded. -/
structure ReviewEnv where
  priorReviews : List PriorReview
  existingComment : Option (Option Nat)
  bot : String
  prFilesNonempty : Bool
  reviewProduced : Bool
  summaryError : Bool
  submitOk : Bool
deriving DecidableEq

/-- Embedding of the action sequence of `_perform_ai_review`: fetch files (failure
branches into the refusal path), run the review, and on a good result submit
it via `submit_ai_review`, then notify; error summaries, empty results and
failed submissions branch into `_remove_review_and_comment`. -/
def performAIReview (env : ReviewEnv) : List RAct :=
  [RAct.getPrFiles] ++
  if env.prFilesNonempty = false then
    removeReviewAndComment env.priorReviews env.existingComment env.bot
  else
    [RAct.reviewCode] ++
    if env.reviewProduced then
      if env.summaryError then
        removeReviewAndComment env.priorReviews env.existingComment env.bot ++
          [RAct.removeReviewRequest]
      else
        [RAct.submitReview] ++
        (if env.submitOk then [RAct.notifySent]
         else removeReviewAndComment env.priorReviews env.existingComment env.bot)
    else
      if env.bot = "" then []
      else
        removeReviewAndComment env.priorReviews env.existingComment env.bot ++
          [RAct.removeReviewRequest]

/-- A successful review run over a PR that has a prior bot review in
CHANGES_REQUESTED state. -/
def exREnv : ReviewEnv :=
  ⟨[⟨"bot1", "CHANGES_REQUESTED", some 7⟩], Option.none, "bot1",
   true, true, false, true⟩

/-! ## AI rate limiter (ai_handler.RateLimiter, ai_models.RateLimitInfo) -/

/-- Source `RateLimitInfo` of ai_models.py. -/
structure RateLimitInfo where
  request_count : Nat
  last_request : Nat
  window_start : Nat
  blocked_until : Option Nat
deriving DecidableEq

/-- Source `RateLimiter.global_limits`. -/
def global_limits : List (String × Nat) :=
  [("requests_per_hour", 100), ("requests_per_minute", 10),
   ("ai_calls_per_hour", 50), ("tool_calls_per_hour", 30)]

/-- The hourly maximum selected for an operation type:
`global_limits.get(f"{op}s_per_hour", 100)`. -/
def maxRequestsFor (op : String) : Nat :=
  (List.lookup (op ++ "s_per_hour") global_limits).getD 100

/-- Source `RateLimiter.user_limits`. -/
structure RLState where
  user_limits : List (String × RateLimitInfo)
deriving DecidableEq

/-- The user-facing reply of a rate-limit check. -/
inductive RLReply
  | blockedHint (remainingSeconds : Nat)
  | overLimit (maxRequests : Nat)
  | allowed
deriving DecidableEq

/-- Store the bucket of a user. -/
def setUserLimit (st : RLState) (u : String) (info : RateLimitInfo) : RLState :=
  ⟨(u, info) :: st.user_limits.filter (fun p => decide (p.1 ≠ u))⟩

/-- Source `RateLimitInfo.reset_if_needed(3600)`. -/
def reset_if_needed (info : RateLimitInfo) (now window : Nat) : RateLimitInfo :=
  if window ≤ now - info.window_start then
    { info with request_count := 0, window_start := now }
  else info

/-- Embedding of `RateLimiter.check_rate_limit(user_id, operation_type)`:
blocked users are refused with the remaining seconds; otherwise the hourly
window is lazily reset, the per-class hourly maximum fetched, and the counter
compared and bumped. -/
def check_rate_limit (st : RLState) (now : Nat) (user op : String) :
    RLState × Bool × RLReply :=
  let info0 := (List.lookup user st.user_limits).getD ⟨0, now, now, Option.none⟩
  let blocked :=
    match info0.blocked_until with
    | some b => decide (now < b)
    | Option.none => false
  if blocked then
    (setUserLimit st user info0, false,
     RLReply.blockedHint ((info0.blocked_until.getD 0) - now))
  else
    let info1 := reset_if_needed info0 now 3600
    let maxR := maxRequestsFor op
    if maxR ≤ info1.request_count then
      (setUserLimit st user { info1 with blocked_until := some (now + 3600) },
       false, RLReply.overLimit maxR)
    else
      (setUserLimit st user
        { info1 with request_count := info1.request_count + 1, last_request := now },
       true, RLReply.allowed)

/-- Run `n` consecutive generic requests for user `u` at instant 0 and collect
the allowed/refused verdicts. -/
def rlRun : Nat → RLState → List Bool
  | 0, _ => []
  | n + 1, st =>
    let r := check_rate_limit st 0 "u" "request"
    r.2.1 :: rlRun n r.1

/-- Rate-limit state with user `u` blocked until instant 100. -/
def rlBlockedSt : RLState :=
  ⟨[("u", ⟨5, 0, 0, some 100⟩)]⟩

/-! ## Helper lemmas -/

/-- Looking up a key in a list filtered on that key being absent yields nothing. -/
theorem lookup_filter_ne {β : Type} (l : List (String × β)) (key : String) :
    List.lookup key (l.filter (fun p => decide (p.1 ≠ key))) = Option.none := by
  induction l with
  | nil => rfl
  | cons p l ih =>
    obtain ⟨k, v⟩ := p
    rw [List.filter_cons]
    by_cases h : k = key
    · rw [if_neg (by simp [h])]
      exact ih
    · rw [if_pos (by simp [h])]
      have hbeq : (key == k) = false := beq_eq_false_iff_ne.mpr (Ne.symm h)
      simp only [List.lookup, hbeq]
      exact ih

/-- Lemma: `eraseGroup` removes the key from the table. -/
theorem lookup_eraseGroup (groups : List (String × AggGroup)) (key : String) :
    List.lookup key (eraseGroup groups key) = Option.none :=
  lookup_filter_ne groups key

/-- Characterization of an unmuted timer fire on a non-empty group: the group
is removed from the table and the snapshot is emitted unless the first
target list of the first message is empty. -/
theorem send_unmuted_spec (st : AggState) (now : Nat) (key : String)
    (g : AggGroup) (hm : st.mute_until ≤ now)
    (hg : List.lookup key st.groups = some g) (hne : g.messages ≠ []) :
    sendAggregatedMessages st now key =
      ({ st with groups := eraseGroup st.groups key },
       if (g.messages.headD defaultPendingMsg).targets = [] then Option.none
       else some (g.messages, (g.messages.headD defaultPendingMsg).targets)) := by
  have hmu : is_muted st now = false := by
    simp only [is_muted, decide_eq_false_iff_not, not_lt]
    exact hm
  unfold sendAggregatedMessages
  rw [if_neg (by rw [hmu]; exact Bool.false_ne_true)]
  simp only [hg]
  rw [if_neg hne]
  split <;> rfl

/-! ## Claim C1: signature verifier -/

/-- Claim C1 counterexample: with a configured non-empty secret and a missing
(empty) signature header, both `verify_github_signature` and the
`_verify_webhook_signature` wrapper return True — verification fails open,
not closed. -/
theorem C1_counterexample :
    verify_github_signature env0 [104, 105] "" "topsecret" = true ∧
    verifyWebhookSignature env0 ⟨true, true, true, some "topsecret", []⟩
      (some [104, 105]) [104, 105] "" = true := by
  constructor <;> rfl

/-- Claim C1 (amended): when both the signature header and the secret are
non-empty, the verifier returns true iff the HMAC digest of the raw body under
the secret, using the algorithm named by the `sha1=` / `sha256=` header prefix,
equals the provided digest (the constant-time comparison is modelled as string
equality); an unrecognized prefix is refused. When the header is missing or
empty the verifier returns true even though a secret is configured. -/
theorem C1_amended (env : SigEnv) (body : List Nat) (sig secret : String)
    (hsig : sig ≠ "") (hsec : secret ≠ "") :
    (sig.take 5 = "sha1=" →
      (verify_github_signature env body sig secret = true ↔
        sig.drop 5 = env.hmacSha1 secret body)) ∧
    (sig.take 5 ≠ "sha1=" → sig.take 7 = "sha256=" →
      (verify_github_signature env body sig secret = true ↔
        sig.drop 7 = env.hmacSha256 secret body)) ∧
    (sig.take 5 ≠ "sha1=" → sig.take 7 ≠ "sha256=" →
      verify_github_signature env body sig secret = false) := by
  unfold verify_github_signature
  rw [if_neg (by simp [hsig, hsec])]
  refine ⟨?_, ?_, ?_⟩
  · intro h1
    simp [h1]
  · intro h1 h2
    simp [h1, h2]
  · intro h1 h2
    simp [h1, h2]

/-- Claim C1 witness: a matching SHA-1 digest is accepted. -/
theorem C1_witness :
    verify_github_signature env0 [1] "sha1=d1feed" "k" = true :=
  ((C1_amended env0 [1] "sha1=d1feed" "k" (by decide) (by decide)).1
    (by decide)).mpr (by decide)

/-! ## Claim C3: mute suppresses enqueue and drain -/

/-- Claim C3: at every instant with `now < muted_until`, the aggregator
produces no outbound send for any key — an `add_message` while muted is
dropped (state unchanged, returns False) and a timer drain while muted sends
nothing (state unchanged, no bundle). -/
theorem C3_mute_suppresses (st : AggState) (now : Nat) (key : String)
    (msg : PendingMsg) (delay : Nat) (h : now < st.mute_until) :
    add_message st now key msg delay = (st, false) ∧
    sendAggregatedMessages st now key = (st, Option.none) := by
  unfold add_message sendAggregatedMessages is_muted
  simp [h]

/-- Claim C3 witness: at instant 50 with mute active until 100, an addition is
dropped and a drain sends nothing. -/
theorem C3_witness :
    add_message exAgg 50 "qq_12345" ⟨2, [6]⟩ 5 = (exAgg, false) ∧
    sendAggregatedMessages exAgg 50 "qq_12345" = (exAgg, Option.none) :=
  C3_mute_suppresses exAgg 50 "qq_12345" ⟨2, [6]⟩ 5 (by decide)

/-! ## Claim C5: drain snapshots and removes the group -/

/-- Claim C5 counterexample: when the timer fires while the mute is active,
`_send_aggregated_messages` returns before taking the table lock — no snapshot
is dropped and, contrary to the claim, the group is NOT removed from the
table. -/
theorem C5_counterexample :
    sendAggregatedMessages exAgg 50 "qq_12345" = (exAgg, Option.none) ∧
    (List.lookup "qq_12345" exAgg.groups).isSome = true := by
  constructor <;> decide

/-- Claim C5 (amended): when the timer for key `k` fires and the mute is
inactive, the messages of the group are snapshotted and the group is deleted from
the table before any send, the bundle being exactly the snapshot (elided when
the first message carries no targets); when the mute is active at that instant
nothing is sent and the table is left untouched, the group remaining. -/
theorem C5_amended (st : AggState) (now : Nat) (key : String) (g : AggGroup)
    (hm : st.mute_until ≤ now) (hg : List.lookup key st.groups = some g)
    (hne : g.messages ≠ []) :
    List.lookup key (sendAggregatedMessages st now key).1.groups = Option.none ∧
    (∀ out, (sendAggregatedMessages st now key).2 = some out →
      out.1 = g.messages) ∧
    ((sendAggregatedMessages st now key).2 = Option.none ↔
      (g.messages.headD defaultPendingMsg).targets = []) ∧
    (∀ st2 now2, now2 < st2.mute_until →
      sendAggregatedMessages st2 now2 key = (st2, Option.none)) := by
  rw [send_unmuted_spec st now key g hm hg hne]
  refine ⟨lookup_eraseGroup st.groups key, ?_, ?_, ?_⟩
  · intro out hout
    by_cases htg : (g.messages.headD defaultPendingMsg).targets = []
    · rw [if_pos htg] at hout
      exact absurd hout (by simp)
    · rw [if_neg htg] at hout
      simp only [Option.some.injEq] at hout
      rw [← hout]
  · by_cases htg : (g.messages.headD defaultPendingMsg).targets = []
    · rw [if_pos htg]
      exact iff_of_true rfl htg
    · rw [if_neg htg]
      exact iff_of_false (by simp) htg
  · intro st2 now2 h2
    unfold sendAggregatedMessages is_muted
    simp [h2]

/-- Claim C5 witness: an unmuted fire on a two-message group removes the group
and outputs its snapshot. -/
theorem C5_witness :
    List.lookup "k2" (sendAggregatedMessages exAgg2 10 "k2").1.groups =
      Option.none :=
  (C5_amended exAgg2 10 "k2" ⟨[⟨1, [5]⟩, ⟨2, [6]⟩], true, 7, 0, 0⟩
    (by decide) (by decide) (by decide)).1

/-! ## Claim C4: one bundle per burst, arrival order, newest ten kept -/

/-- Trimming an already trimmed backlog after appending more messages agrees
with trimming the untrimmed backlog: step-wise FIFO eviction keeps exactly the
newest ten in arrival order. -/
theorem lastTen_append_left (l ms : List PendingMsg) :
    lastTen (lastTen l ++ ms) = lastTen (l ++ ms) := by
  unfold lastTen
  by_cases hL : l.length ≤ max_messages_per_group
  · rw [Nat.sub_eq_zero_of_le hL, List.drop_zero]
  · rw [List.drop_append_eq_append_drop, List.drop_append_eq_append_drop,
      List.drop_drop]
    simp only [max_messages_per_group] at hL ⊢
    congr 1
    · congr 1
      simp only [List.length_append, List.length_drop]
      omega
    · congr 1
      simp only [List.length_append, List.length_drop]
      omega

/-- A non-empty backlog stays non-empty after trimming. -/
theorem lastTen_ne_nil (l : List PendingMsg) (hl : l ≠ []) : lastTen l ≠ [] := by
  intro hcontra
  unfold lastTen at hcontra
  rw [List.drop_eq_nil_iff] at hcontra
  have hpos : 0 < l.length := List.length_pos.mpr hl
  simp only [max_messages_per_group] at hcontra
  omega

/-- A backlog of at most ten messages is untouched by trimming. -/
theorem lastTen_of_le (l : List PendingMsg) (hl : l.length ≤ max_messages_per_group) :
    lastTen l = l := by
  unfold lastTen
  rw [Nat.sub_eq_zero_of_le hl, List.drop_zero]

/-- One unmuted `add_message` puts the key at the head of the table with the
appended-and-trimmed backlog, a re-armed timer, and an unchanged mute. -/
theorem add_message_lookup (st : AggState) (now : Nat) (key : String)
    (msg : PendingMsg) (delay : Nat) (h : st.mute_until ≤ now) :
    ∃ g2,
      ((add_message st now key msg delay).1).groups
        = (key, g2) :: eraseGroup st.groups key ∧
      g2.messages = lastTen (groupMessages st key ++ [msg]) ∧
      g2.timerArmed = true ∧
      ((add_message st now key msg delay).1).mute_until = st.mute_until := by
  have hmu : is_muted st now = false := by
    simp only [is_muted, decide_eq_false_iff_not, not_lt]
    exact h
  unfold add_message
  rw [if_neg (by rw [hmu]; exact Bool.false_ne_true)]
  refine ⟨_, rfl, ?_, rfl, rfl⟩
  have hgm : ((List.lookup key st.groups).getD ⟨[], false, 0, now, now⟩).messages
      = groupMessages st key := by
    unfold groupMessages
    cases List.lookup key st.groups <;> rfl
  show (if max_messages_per_group
        < (((List.lookup key st.groups).getD ⟨[], false, 0, now, now⟩).messages
            ++ [msg]).length then
      (((List.lookup key st.groups).getD ⟨[], false, 0, now, now⟩).messages
          ++ [msg]).drop
        ((((List.lookup key st.groups).getD ⟨[], false, 0, now, now⟩).messages
            ++ [msg]).length - max_messages_per_group)
    else
      ((List.lookup key st.groups).getD ⟨[], false, 0, now, now⟩).messages
        ++ [msg])
    = lastTen (groupMessages st key ++ [msg])
  rw [hgm]
  unfold lastTen
  split
  · rfl
  · next hcond =>
    rw [Nat.sub_eq_zero_of_le (Nat.le_of_not_lt hcond), List.drop_zero]

/-- Folding a burst of unmuted additions for one key yields a single group
holding the trimmed concatenation of the burst in arrival order, with an armed
timer; the mute deadline never changes. -/
theorem addBurst_group (key : String) (delay : Nat) :
    ∀ (burst : List (Nat × PendingMsg)) (st : AggState),
      (∀ p ∈ burst, st.mute_until ≤ p.1) →
      (addBurst st key delay burst).mute_until = st.mute_until ∧
      (burst ≠ [] → ∃ g2,
        List.lookup key (addBurst st key delay burst).groups = some g2 ∧
        g2.messages = lastTen (groupMessages st key ++ burst.map Prod.snd) ∧
        g2.timerArmed = true) := by
  intro burst
  induction burst with
  | nil =>
    intro st _
    exact ⟨rfl, fun hc => absurd rfl hc⟩
  | cons p rest ih =>
    intro st h
    obtain ⟨t, m⟩ := p
    have hm : st.mute_until ≤ t := h (t, m) (List.mem_cons_self _ _)
    obtain ⟨g2, hgroups, hmsgs, harmed, hmute⟩ := add_message_lookup st t key m delay hm
    have hstep : addBurst st key delay ((t, m) :: rest)
        = addBurst (add_message st t key m delay).1 key delay rest := rfl
    have hrest : ∀ q ∈ rest, ((add_message st t key m delay).1).mute_until ≤ q.1 := by
      intro q hq
      rw [hmute]
      exact h q (List.mem_cons_of_mem _ hq)
    obtain ⟨ihmute, ihmain⟩ := ih (add_message st t key m delay).1 hrest
    constructor
    · rw [hstep, ihmute, hmute]
    · intro _
      by_cases hrn : rest = []
      · refine ⟨g2, ?_, ?_, harmed⟩
        · rw [hstep, hrn]
          show List.lookup key ((add_message st t key m delay).1).groups = some g2
          rw [hgroups]
          simp [List.lookup]
        · rw [hmsgs, hrn]
          rfl
      · obtain ⟨g3, h3l, h3m, h3a⟩ := ihmain hrn
        refine ⟨g3, ?_, ?_, h3a⟩
        · rw [hstep]
          exact h3l
        · rw [h3m]
          have hg1 : groupMessages (add_message st t key m delay).1 key = g2.messages := by
            unfold groupMessages
            rw [hgroups]
            simp [List.lookup]
          rw [hg1, hmsgs, lastTen_append_left, List.append_assoc]
          rfl

/-- Claim C4: for a key not yet in the table, a burst of `m ≥ 1` unmuted
additions followed by the (single, re-armed) timer firing produces exactly one
outbound bundle, the bundle lists the messages in arrival order trimmed to the
newest ten (FIFO eviction), the group is gone afterwards and a second fire
sends nothing; `m = 0` produces no send; a burst of at most ten messages is
delivered in full. -/
theorem C4_burst (st0 : AggState) (key : String) (delay : Nat)
    (burst : List (Nat × PendingMsg)) (tEnd : Nat)
    (hfresh : List.lookup key st0.groups = Option.none)
    (hnm : ∀ p ∈ burst, st0.mute_until ≤ p.1)
    (hend : st0.mute_until ≤ tEnd) :
    (burst = [] →
      sendAggregatedMessages (addBurst st0 key delay burst) tEnd key
        = (addBurst st0 key delay burst, Option.none)) ∧
    (burst ≠ [] →
      ((lastTen (burst.map Prod.snd)).headD defaultPendingMsg).targets ≠ [] →
      (sendAggregatedMessages (addBurst st0 key delay burst) tEnd key).2
          = some (lastTen (burst.map Prod.snd),
              ((lastTen (burst.map Prod.snd)).headD defaultPendingMsg).targets) ∧
      List.lookup key
          ((sendAggregatedMessages (addBurst st0 key delay burst) tEnd key).1).groups
        = Option.none ∧
      (sendAggregatedMessages
          ((sendAggregatedMessages (addBurst st0 key delay burst) tEnd key).1)
          tEnd key).2 = Option.none) ∧
    (burst.length ≤ max_messages_per_group →
      lastTen (burst.map Prod.snd) = burst.map Prod.snd) := by
  obtain ⟨hmute, hmain⟩ := addBurst_group key delay burst st0 hnm
  refine ⟨?_, ?_, ?_⟩
  · intro hz
    subst hz
    have hb : addBurst st0 key delay [] = st0 := rfl
    rw [hb]
    unfold sendAggregatedMessages
    rw [if_neg (by simp only [is_muted, decide_eq_true_eq, not_lt]; exact hend)]
    rw [hfresh]
  · intro hne hft
    obtain ⟨g2, hg2, hm2, _⟩ := hmain hne
    have hgm0 : groupMessages st0 key = [] := by
      unfold groupMessages
      rw [hfresh]
    rw [hgm0, List.nil_append] at hm2
    have hmapne : burst.map Prod.snd ≠ [] := by
      intro hc
      exact hne (List.map_eq_nil_iff.mp hc)
    have hne2 : g2.messages ≠ [] := by
      rw [hm2]
      exact lastTen_ne_nil _ hmapne
    have hmle : (addBurst st0 key delay burst).mute_until ≤ tEnd := by
      rw [hmute]
      exact hend
    have hspec := send_unmuted_spec (addBurst st0 key delay burst) tEnd key g2
      hmle hg2 hne2
    rw [hspec]
    rw [hm2]
    rw [if_neg hft]
    refine ⟨rfl, lookup_eraseGroup _ _, ?_⟩
    unfold sendAggregatedMessages
    rw [if_neg (by simp only [is_muted, decide_eq_true_eq, not_lt]; rw [hmute]; exact hend)]
    rw [lookup_eraseGroup]
  · intro hlen
    refine lastTen_of_le _ ?_
    rw [List.length_map]
    exact hlen

/-- Claim C4 witness: a two-message burst on a fresh key drains to a single
bundle containing both messages in arrival order, addressed per the first
message. -/
theorem C4_witness :
    (sendAggregatedMessages
        (addBurst ⟨[], 0⟩ "kk" 5 [(1, ⟨1, [9]⟩), (2, ⟨2, [9]⟩)]) 10 "kk").2
      = some ([⟨1, [9]⟩, ⟨2, [9]⟩], [9]) := by
  have h := C4_burst ⟨[], 0⟩ "kk" 5 [(1, ⟨1, [9]⟩), (2, ⟨2, [9]⟩)] 10
    (by decide) (by decide) (by decide)
  exact ((h.2.1 (by decide) (by decide)).1).trans (by decide)

/-! ## Claim C2: write-class tool permission gate -/

/-- For any tool whose registry configuration carries the `github_write` tag,
`_check_tool_permissions` passes exactly when the effective chat level of the user
is WRITE or SU: the tag check `has_qq_permission(user, WRITE)` ignores the
code-host binding, and when the effective level is WRITE or SU the read/write
set gate is always satisfied. -/
theorem checkToolPermissions_write_tag (st : PermState) (qq tool : String) :
    checkToolPermissions st qq tool ["github_write"] = true ↔
      (effective_qq_permission st qq = QQLevel.write ∨
       effective_qq_permission st qq = QQLevel.su) := by
  have hmap : permission_mapping "github_write" = QQLevel.write := by decide
  cases h : effective_qq_permission st qq <;>
    simp [checkToolPermissions, check_mcp_write_permission, has_qq_permission,
      qqRank, hmap, h]

/-- Claim C2 counterexample: chat user `u1` has stored level NONE and is bound
to code-host user `g1` whose level is WRITE (so the claim predicts that
`create_issue` executes), yet the tool-permission gate refuses the call: the
`github_write` tag check requires effective chat level WRITE, and the binding
only lifts `u1` to effective READ. -/
theorem C2_counterexample :
    get_github_by_qq exPerm "u1" = some "g1" ∧
    get_github_permission exPerm "g1" = GHLevel.write ∧
    effective_qq_permission exPerm "u1" = QQLevel.read ∧
    toolExecutes exPerm "u1" "create_issue" = false := by
  decide

/-- Claim C2 (amended): a registered write-class tool (`create_issue`,
`update_issue`, `close_issue`, `create_pull_request`, `update_pull_request`,
`merge_pull_request`, `add_comment`, `create_issue_comment`, `update_comment`,
`delete_comment`, `create_label` — each carrying the `github_write` tag)
executes if and only if the effective level of the chat user is WRITE or SU;
a binding to a code-host user at WRITE does not by itself grant execution,
and `reopen_issue`, label add/remove, assign/unassign and `request_review`
are not registered tools, so they never execute. -/
theorem C2_amended (st : PermState) (qq tool : String)
    (h : tool ∈ registry_write_tools) :
    toolExecutes st qq tool = true ↔
      (effective_qq_permission st qq = QQLevel.write ∨
       effective_qq_permission st qq = QQLevel.su) := by
  have hall : ∀ t ∈ registry_write_tools,
      List.lookup t mcp_tool_registry = some ["github_write"] := by decide
  have hreg := hall tool h
  simp only [toolExecutes, hreg]
  exact checkToolPermissions_write_tag st qq tool

/-- Claim C2 witness: a chat user with stored level WRITE may run
`create_issue`. -/
theorem C2_witness : toolExecutes wPerm "w1" "create_issue" = true :=
  (C2_amended wPerm "w1" "create_issue" (by decide)).mpr (Or.inl (by decide))

/-! ## Claim C10: fan-out targets come from the first message only -/

/-- Claim C10: when a group with two or more messages is drained, the outbound
target list of the bundle is exactly the target list of the FIRST message of the
group; a target appearing only on later messages receives nothing. -/
theorem C10_first_message_targets (st : AggState) (now : Nat) (key : String)
    (g : AggGroup) (hm : st.mute_until ≤ now)
    (hg : List.lookup key st.groups = some g) (h2 : 2 ≤ g.messages.length) :
    ∀ out, (sendAggregatedMessages st now key).2 = some out →
      out.2 = (g.messages.headD defaultPendingMsg).targets ∧
      ∀ t, t ∈ out.2 → t ∈ (g.messages.headD defaultPendingMsg).targets := by
  have hne : g.messages ≠ [] := by
    intro h
    rw [h] at h2
    simp at h2
  intro out hout
  rw [send_unmuted_spec st now key g hm hg hne] at hout
  by_cases htg : (g.messages.headD defaultPendingMsg).targets = []
  · rw [if_pos htg] at hout
    exact absurd hout (by simp)
  · rw [if_neg htg] at hout
    simp only [Option.some.injEq] at hout
    rw [← hout]
    exact ⟨rfl, fun t ht => ht⟩

/-- Claim C10 witness: the two-message group with target lists `[5]` and `[6]`
drains to a bundle addressed to `[5]` only. -/
theorem C10_witness :
    ∃ out, (sendAggregatedMessages exAgg2 10 "k2").2 = some out ∧ out.2 = [5] := by
  refine ⟨([⟨1, [5]⟩, ⟨2, [6]⟩], [5]), by decide, ?_⟩
  exact ((C10_first_message_targets exAgg2 10 "k2"
    ⟨[⟨1, [5]⟩, ⟨2, [6]⟩], true, 7, 0, 0⟩ (by decide) (by decide) (by decide)
    ([⟨1, [5]⟩, ⟨2, [6]⟩], [5]) (by decide)).1).trans (by decide)

/-! ## Claims C6 and C9: submit pipeline order and dedup recording -/

/-- The post-dedup pipeline stages never touch the delivery cache. -/
theorem processRest_cache (env : SigEnv) (st : WPState) (e : EventIn)
    (repo : Option String) :
    ((processRest env st e repo).1).delivery_cache = st.delivery_cache := by
  unfold processRest
  split
  · rfl
  · split
    · rfl
    · split
      · rfl
      · split <;> rfl

/-- Projections of `prependSteps`. -/
theorem prependSteps_fst (steps : List WStep) (r : WPState × PWResult × List WStep) :
    (prependSteps steps r).1 = r.1 := rfl

/-- Result projection of `prependSteps`. -/
theorem prependSteps_result (steps : List WStep)
    (r : WPState × PWResult × List WStep) :
    (prependSteps steps r).2.1 = r.2.1 := rfl

/-- Claim C6 counterexample: the code runs dedup BEFORE the repository gate
and signature verification, not after them as the claim orders the steps.
Concretely: the step trace of a full run is
validate, extract, dedup, gate, signature, enqueue, which differs from the
claimed order; an event whose signature is invalid is accepted as a duplicate
when its delivery id is cached (first-time submission of the same event is
rejected for its signature); and an event whose type is excluded by the
`allowed_message_types` of the repository configuration is still enqueued — the event-type allowance
is not part of the Submit gate. -/
theorem C6_counterexample :
    ((process_webhook env0 exWP 0 exEventOk).2.2 = codeStepOrder ∧
      codeStepOrder ≠ claimedStepOrder) ∧
    ((process_webhook env0 exWPdup 0 exEvent).2.1 = PWResult.acceptedDuplicate ∧
      (process_webhook env0 exWP 0 exEvent).2.1 = PWResult.rejectedSignature) ∧
    ((process_webhook env0 exWP 0 exEventOk).2.1 = PWResult.acceptedEnqueued ∧
      exEventOk.event_type ∉ exCfg.allowed_message_types) := by
  decide

/-- Claim C6 (amended): `process_webhook` runs its steps in the order
validate (supported set and required fields), extract repository, dedup
lookup, repository-config gate (presence and enabled flags — event-type
allowance is checked later by the notification handler), signature
verification, then enqueue: the step trace of every execution is a prefix of
that order. The enqueue is a blocking `await put` on the 1000-bounded queue —
it appends the delivery id and never rejects (the queue-full except branch of
the source is unreachable): a run reports enqueued exactly when it appended
the id, and every run either leaves the queue unchanged or appends that one
id. -/
theorem C6_amended (env : SigEnv) (st : WPState) (now : Nat) (e : EventIn) :
    (∃ rest, (process_webhook env st now e).2.2 ++ rest = codeStepOrder) ∧
    ((process_webhook env st now e).2.1 = PWResult.acceptedEnqueued ↔
      ((process_webhook env st now e).1).queue = st.queue ++ [e.delivery_id]) ∧
    (((process_webhook env st now e).1).queue = st.queue ∨
      ((process_webhook env st now e).1).queue = st.queue ++ [e.delivery_id]) := by
  simp only [process_webhook, processRest, prependSteps]
  split
  · exact ⟨⟨[WStep.extract, WStep.dedup, WStep.gate, WStep.sigver, WStep.enq], rfl⟩,
      ⟨fun h => PWResult.noConfusion h, fun h => absurd h (by simp)⟩, Or.inl rfl⟩
  · split
    · exact ⟨⟨[WStep.gate, WStep.sigver, WStep.enq], rfl⟩,
        ⟨fun h => PWResult.noConfusion h, fun h => absurd h (by simp)⟩, Or.inl rfl⟩
    · split
      · exact ⟨⟨[WStep.sigver, WStep.enq], rfl⟩,
          ⟨fun h => PWResult.noConfusion h, fun h => absurd h (by simp)⟩, Or.inl rfl⟩
      · split
        · exact ⟨⟨[WStep.sigver, WStep.enq], rfl⟩,
            ⟨fun h => PWResult.noConfusion h, fun h => absurd h (by simp)⟩, Or.inl rfl⟩
        · split
          · exact ⟨⟨[WStep.sigver, WStep.enq], rfl⟩,
              ⟨fun h => PWResult.noConfusion h, fun h => absurd h (by simp)⟩, Or.inl rfl⟩
          · split
            · exact ⟨⟨[WStep.enq], rfl⟩,
                ⟨fun h => PWResult.noConfusion h, fun h => absurd h (by simp)⟩,
                Or.inl rfl⟩
            · exact ⟨⟨[], rfl⟩, ⟨fun _ => rfl, fun _ => rfl⟩, Or.inr rfl⟩

/-- Claim C6 witness: a valid, correctly signed event is enqueued. -/
theorem C6_witness :
    (process_webhook env0 exWP 0 exEventOk).1.queue = exWP.queue ++ ["d2"] :=
  ((C6_amended env0 exWP 0 exEventOk).2.1).mp (by decide)

/-- Claim C9: the dedup cache records the delivery id at its first lookup,
before the repository gate, signature verification and enqueueing; hence after
any first submission that got past validation (even one afterwards rejected,
e.g. for its signature), a retry of the same delivery id within the 1-hour
window is reported as a successful duplicate, with nothing enqueued. -/
theorem C9_dedup_records_first (env : SigEnv) (st : WPState) (now now2 : Nat)
    (e : EventIn) (hval : validateEvent e = true)
    (hfirst : (process_webhook env st now e).2.1 ≠ PWResult.acceptedDuplicate)
    (hwin : now2 - now ≤ cache_ttl) :
    List.lookup e.delivery_id ((process_webhook env st now e).1).delivery_cache
      = some now ∧
    (process_webhook env ((process_webhook env st now e).1) now2 e).2.1
      = PWResult.acceptedDuplicate ∧
    ((process_webhook env ((process_webhook env st now e).1) now2 e).1).queue
      = ((process_webhook env st now e).1).queue := by
  have hv : ¬ validateEvent e = false := by simp [hval]
  have hcache : ((process_webhook env st now e).1).delivery_cache
      = (e.delivery_id, now) :: expireCache st.delivery_cache now := by
    unfold process_webhook
    rw [if_neg hv]
    by_cases hd :
        (List.lookup e.delivery_id (expireCache st.delivery_cache now)).isSome = true
    · exfalso
      apply hfirst
      unfold process_webhook
      rw [if_neg hv, if_pos hd]
    · rw [if_neg hd, prependSteps_fst, processRest_cache]
  have hk : (e.delivery_id == e.delivery_id) = true := beq_self_eq_true e.delivery_id
  have hsecond : ∀ stx : WPState,
      stx.delivery_cache = (e.delivery_id, now) :: expireCache st.delivery_cache now →
      (process_webhook env stx now2 e).2.1 = PWResult.acceptedDuplicate ∧
      ((process_webhook env stx now2 e).1).queue = stx.queue := by
    intro stx hx
    have hmem :
        (List.lookup e.delivery_id (expireCache stx.delivery_cache now2)).isSome
          = true := by
      rw [hx]
      unfold expireCache
      rw [List.filter_cons]
      rw [if_pos (by simp only [decide_eq_true_eq]; omega)]
      simp [List.lookup, hk]
    constructor
    · unfold process_webhook
      rw [if_neg hv, if_pos hmem]
    · unfold process_webhook
      rw [if_neg hv, if_pos hmem]
  refine ⟨?_, (hsecond _ hcache).1, (hsecond _ hcache).2⟩
  rw [hcache]
  simp only [List.lookup, hk]

/-- Claim C9 witness: the first submission of `exEvent` is rejected for its
bad signature, yet a retry ten seconds later is accepted as a duplicate and
the queue stays unchanged. -/
theorem C9_witness :
    (process_webhook env0 ((process_webhook env0 exWP 0 exEvent).1) 10 exEvent).2.1
      = PWResult.acceptedDuplicate :=
  (C9_dedup_records_first env0 exWP 0 10 exEvent (by decide) (by decide)
    (by decide)).2.1

/-! ## Claim C7: hiding prior reviews -/

/-- Claim C7 counterexample: a successful AI-review run over a PR that has a
prior bot review in CHANGES_REQUESTED state submits the new review without
hiding the prior one — the hide step happens only on failure paths, never
before a successful submission. -/
theorem C7_counterexample :
    performAIReview exREnv
      = [RAct.getPrFiles, RAct.reviewCode, RAct.submitReview, RAct.notifySent] ∧
    RAct.submitReview ∈ performAIReview exREnv ∧
    RAct.hideReview 7 ∉ performAIReview exREnv ∧
    exREnv.priorReviews = [⟨"bot1", "CHANGES_REQUESTED", some 7⟩] := by
  decide

/-- Claim C7 (amended): prior bot reviews in state CHANGES_REQUESTED or
COMMENTED are found and hidden as outdated only on the refusal/failure path
(`_remove_review_and_comment` hides exactly those reviews, before posting the
explanatory comment and removing the review request); a successful submission
of a new AI review result hides nothing. -/
theorem C7_amended (reviews : List PriorReview) (cmt : Option (Option Nat))
    (bot : String) (env : ReviewEnv) :
    (∀ i, RAct.hideReview i ∈ checkAndHideOutdatedReviews reviews bot ↔
      ∃ r ∈ reviews, r.author = bot ∧ r.state ∈ hide_states ∧ r.id = some i) ∧
    (∃ tail, removeReviewAndComment reviews cmt bot
        = checkAndHideOutdatedReviews reviews bot ++ tail ∧
      ∀ i, RAct.hideReview i ∉ tail) ∧
    (env.prFilesNonempty = true → env.reviewProduced = true →
      env.summaryError = false → env.submitOk = true →
      ∀ i, RAct.hideReview i ∉ performAIReview env) := by
  refine ⟨?_, ?_, ?_⟩
  · intro i
    unfold checkAndHideOutdatedReviews
    rw [List.mem_filterMap]
    constructor
    · rintro ⟨r, hr, hfr⟩
      refine ⟨r, hr, ?_⟩
      by_cases hc : r.author = bot ∧ r.state ∈ hide_states
      · rw [if_pos hc] at hfr
        cases hid : r.id with
        | none =>
          rw [hid] at hfr
          cases hfr
        | some j =>
          rw [hid] at hfr
          simp only [Option.some.injEq, RAct.hideReview.injEq] at hfr
          exact ⟨hc.1, hc.2, congrArg some hfr⟩
      · rw [if_neg hc] at hfr
        cases hfr
    · rintro ⟨r, hr, ha, hs, hid⟩
      refine ⟨r, hr, ?_⟩
      rw [if_pos ⟨ha, hs⟩, hid]
  · refine ⟨(match cmt with
      | some (some _) => [RAct.updateComment]
      | some Option.none => [RAct.createComment]
      | Option.none => [RAct.createComment]) ++ [RAct.removeReviewRequest],
      ?_, ?_⟩
    · unfold removeReviewAndComment
      rw [List.append_assoc]
    · intro i hmem
      rcases cmt with _ | (_ | n) <;> simp at hmem
  · intro h1 h2 h3 h4 i
    unfold performAIReview
    rw [if_neg (by simp [h1]), if_pos h2, if_neg (by simp [h3]), if_pos h4]
    simp

/-- Claim C7 witness: the failure-path hide step does hide a prior COMMENTED
bot review. -/
theorem C7_witness :
    RAct.hideReview 7 ∈
      checkAndHideOutdatedReviews [⟨"b", "COMMENTED", some 7⟩] "b" :=
  ((C7_amended [⟨"b", "COMMENTED", some 7⟩] Option.none "b" exREnv).1 7).mpr
    ⟨⟨"b", "COMMENTED", some 7⟩, by decide, by decide, by decide, by decide⟩

/-! ## Claim C8: rate limiter -/

/-- Claim C8 counterexample: eleven generic requests by one user within the
same minute (all at instant 0) are ALL allowed — the declared per-minute burst
limit of 10 (`requests_per_minute`) is never consulted by
`check_rate_limit`, which only ever selects `<op>s_per_hour` keys. -/
theorem C8_counterexample :
    rlRun 11 ⟨[]⟩ = List.replicate 11 true := by
  decide

/-- Claim C8 (amended): rate limiting uses a 1-hour window with a per-class
hourly limit (generic 100, AI calls 50, tool calls 30; unknown classes default
to 100) on a single shared per-user counter; no per-minute burst limit is
enforced. A user at or over the hourly limit is refused and blocked for one
hour from that moment, and while blocked every request is refused with a
remaining-time hint; under the limit the counter is bumped and the call
allowed. -/
theorem C8_amended (st : RLState) (now : Nat) (user op : String) :
    (maxRequestsFor "request" = 100 ∧ maxRequestsFor "ai_call" = 50 ∧
      maxRequestsFor "tool_call" = 30) ∧
    (∀ info b, List.lookup user st.user_limits = some info →
      info.blocked_until = some b → now < b →
      check_rate_limit st now user op
        = (setUserLimit st user info, false, RLReply.blockedHint (b - now))) ∧
    (∀ info, List.lookup user st.user_limits = some info →
      info.blocked_until = Option.none →
      maxRequestsFor op ≤ (reset_if_needed info now 3600).request_count →
      check_rate_limit st now user op
        = (setUserLimit st user
            { reset_if_needed info now 3600 with
                blocked_until := some (now + 3600) },
           false, RLReply.overLimit (maxRequestsFor op))) ∧
    (∀ info, List.lookup user st.user_limits = some info →
      info.blocked_until = Option.none →
      (reset_if_needed info now 3600).request_count < maxRequestsFor op →
      check_rate_limit st now user op
        = (setUserLimit st user
            { reset_if_needed info now 3600 with
                request_count := (reset_if_needed info now 3600).request_count + 1,
                last_request := now },
           true, RLReply.allowed)) := by
  refine ⟨by decide, ?_, ?_, ?_⟩
  · intro info b hl hb hlt
    unfold check_rate_limit
    simp only [hl, Option.getD_some, hb]
    rw [if_pos (decide_eq_true hlt)]
  · intro info hl hb hover
    unfold check_rate_limit
    simp only [hl, Option.getD_some, hb]
    rw [if_neg (by simp)]
    rw [if_pos hover]
  · intro info hl hb hunder
    unfold check_rate_limit
    simp only [hl, Option.getD_some, hb]
    rw [if_neg (by simp)]
    rw [if_neg (Nat.not_le.mpr hunder)]

/-- Claim C8 witness: a blocked user is refused with the remaining seconds. -/
theorem C8_witness :
    check_rate_limit rlBlockedSt 40 "u" "request"
      = (setUserLimit rlBlockedSt "u" ⟨5, 0, 0, some 100⟩, false,
         RLReply.blockedHint 60) := by
  have h := (C8_amended rlBlockedSt 40 "u" "request").2.1 ⟨5, 0, 0, some 100⟩ 100
    (by decide) (by decide) (by decide)
  exact h.trans (by decide)

end GhWebhook
